import Mathlib

/-!
# webviewloader: lazy, once-only loading of WebView2Loader and its three wrappers

A shallow embedding of
`v2/internal/frontend/desktop/windows/go-webview2/webviewloader/module.go`.

The package keeps six package-level variables (`memOnce`, `memModule`, the three
`winloader.Proc` handles and `memErr`); they are the fields of `State`.  Every
function of the package becomes a Lean function that takes the current `State`
and returns the next one together with what the Go function returned.

Everything the package reaches outside itself (the in-memory loader, the native
routines behind the handles, the UTF-16 conversions of `x/sys/windows`) is a
field of `World`; the theorems quantify over every `World`.  To be able to say
"the loader was invoked" or "a native routine was called", `State` carries one
extra component that the Go program does not have: `trace`, the list of
external effects performed so far, oldest first.

Integer widths: `uint64` and `uintptr` values are natural numbers reduced
modulo `2 ^ 64` (`uintptr` is taken 64 bits wide, as on windows/amd64 and
windows/arm64); the `int32` result slot is an integer in `[-2^31, 2^31)`.
-/

namespace Webviewloader

/-! ## Go values -/

/-- A Go `string`: a sequence of bytes. -/
abbrev GoString := List (Fin 256)

/-- An error value made outside this package: a `syscall.Errno` (the dynamic
type of every Windows last-error value, `ERROR_SUCCESS` included) or any other
error, known only by its text. -/
inductive ExternalError where
  | Errno (code : Nat)
  | other (text : String)
  deriving DecidableEq, Repr

/-- A non-nil value of the Go interface type `error` as this package sees it:
an error handed over from outside, or one built here with `fmt.Errorf`, which
records the format string, the integer operands and the operand of `%w`
(possibly a nil error).  A Go `error` is an `Option GoError`; `none` is `nil`. -/
inductive GoError where
  | ext (e : ExternalError)
  | Errorf (format : String) (args : List Nat) (wrapped : Option ExternalError)
  deriving DecidableEq, Repr

/-- The constant `windows.ERROR_SUCCESS`, that is `syscall.Errno(0)`. -/
def ERROR_SUCCESS : ExternalError := .Errno 0

/-- The constant `E_FILENOTFOUND = 0x80070002` of module.go. -/
def E_FILENOTFOUND : Nat := 0x80070002

/-- Conversion to `uint64`. -/
def uint64 (x : Nat) : Nat := x % 2 ^ 64

/-- Conversion to `uintptr` (64 bits wide). -/
def uintptr (x : Nat) : Nat := x % 2 ^ 64

/-- Conversion of an integer to `int32` (two's complement wrap-around). -/
def int32 (x : Int) : Int := (x + 2 ^ 31) % 2 ^ 32 - 2 ^ 31

/-- A Go result: the function returned a value, or the goroutine panicked
(a method call through a nil interface value is a run-time panic). -/
inductive Outcome (α : Type) where
  | returned (a : α)
  | panicked
  deriving DecidableEq, Repr

/-! ## The native side -/

/-- A `winloader.Proc`: a procedure of a loaded module, known by its address. -/
structure Proc where
  addr : Nat
  deriving DecidableEq, Repr

/-- A `winloader.Module`: the table of exported procedures of a loaded image. -/
structure Module where
  exports : List (String × Proc)
  deriving DecidableEq, Repr

/-- The method `Module.Proc(name)`: the procedure exported under `name`, or
nil (`none`) when the image has no such export. -/
def Module.Proc (m : Module) (name : String) : Option Proc :=
  m.exports.lookup name

/-- One `uint64` argument of a native call.  An address is represented by what
it points to: `wstr units` is the address of a buffer holding the UTF-16 code
units `units`, `out` is the address of the caller's local variable `result`,
and `word v` is any other 64-bit value. -/
inductive Arg where
  | word (v : Nat)
  | wstr (units : List Nat)
  | out
  deriving DecidableEq, Repr

/-- A `*uint16` obtained from a slice: nil, or the address of a buffer. -/
abbrev WStrPtr := Option (List Nat)

/-- The expression `uint64(uintptr(unsafe.Pointer(p)))` for a `*uint16` that
points into a Go slice: zero for nil, otherwise the buffer's address. -/
def ptrArg : WStrPtr → Arg
  | none => .word (uint64 (uintptr 0))
  | some units => .wstr units

/-- What the caller observes after `Proc.Call` returns: the two result words,
the last-error value, and the content of the variable whose address was passed
as `out`, read as the `int32` it is in `CompareBrowserVersions` (`outInt32`) and
as the `*uint16` it is in `GetInstalledVersion` (`outWStr`: nil, or the memory
found at the stored address). -/
structure CallResult where
  r1 : Nat
  r2 : Nat
  lastErr : Option ExternalError
  outInt32 : Int
  outWStr : WStrPtr
  deriving DecidableEq, Repr

/-- An external effect of the package. -/
inductive Event where
  | LoadFromMemory (data : List (Fin 256))
  | Call (p : Proc) (args : List Arg)
  | CoTaskMemFree (p : WStrPtr)
  deriving DecidableEq, Repr

/-- What is true for the loader call alone. -/
def Event.isLoad : Event → Bool
  | .LoadFromMemory _ => true
  | _ => false

/-- What is true for native routine calls (through a handle or into ole32). -/
def Event.isNative : Event → Bool
  | .LoadFromMemory _ => false
  | _ => true

/-- Everything outside the package.
* `EINVAL`: the numeric value of `syscall.EINVAL`;
* `utf16Encode`, `utf16Decode`: `utf16.Encode([]rune(s))` and
  `string(utf16.Decode(u))`;
* `WebView2Loader`: the embedded image, a package variable declared in another
  file of the package;
* `LoadFromMemory`: the outcome of `winloader.LoadFromMemory`, a module or a
  non-nil error;
* `native`: what a native routine does when called with the given arguments
  after the given history of effects. -/
structure World where
  EINVAL : Nat
  utf16Encode : GoString → List Nat
  utf16Decode : List Nat → GoString
  WebView2Loader : List (Fin 256)
  LoadFromMemory : List (Fin 256) → Except ExternalError Module
  native : List Event → Proc → List Arg → CallResult

/-- The function `windows.UTF16PtrFromString`: `(nil, EINVAL)` when `s` holds a
NUL byte anywhere, otherwise the address of the UTF-16 encoding of `s` with a
terminating NUL appended. -/
def UTF16PtrFromString (w : World) (s : GoString) : WStrPtr × Option GoError :=
  if s.contains 0 then (none, some (.ext (.Errno w.EINVAL)))
  else (some (w.utf16Encode (s ++ [0])), none)

/-- The function `windows.UTF16PtrToString`: the empty string for a nil pointer
or a buffer that starts with NUL, otherwise the decoding of the code units
before the first NUL. -/
def UTF16PtrToString (w : World) : WStrPtr → GoString
  | none => []
  | some units =>
    if units.headD 0 = 0 then [] else w.utf16Decode (units.takeWhile (fun u => u ≠ 0))

/-! ## Package state -/

/-- The package-level variables of module.go, and the trace of effects. -/
structure State where
  memOnce : Bool
  memModule : Option Module
  memCreate : Option Proc
  memCompareBrowserVersions : Option Proc
  memGetAvailableCoreWebView2BrowserVersionString : Option Proc
  memErr : Option GoError
  trace : List Event
  deriving DecidableEq, Repr

/-- The state at process start: every variable holds its zero value. -/
def State.initial : State :=
  { memOnce := false, memModule := none, memCreate := none,
    memCompareBrowserVersions := none,
    memGetAvailableCoreWebView2BrowserVersionString := none,
    memErr := none, trace := [] }

/-- The method `Proc.Call` on a non-nil handle: the routine runs (one more
entry in the trace) and its result words are `uint64` values. -/
def Proc.Call (w : World) (s : State) (p : Proc) (args : List Arg) : State × CallResult :=
  let r := w.native s.trace p args
  ({ s with trace := s.trace ++ [Event.Call p args] },
   { r with r1 := uint64 r.r1, r2 := uint64 r.r2, outInt32 := int32 r.outInt32 })

/-- The function `windows.CoTaskMemFree`. -/
def CoTaskMemFree (s : State) (p : WStrPtr) : State :=
  { s with trace := s.trace ++ [Event.CoTaskMemFree p] }

/-! ## The functions of module.go -/

/-- The function `loadFromMemory`.  The local `err` starts as nil and is set
only inside the closure given to `memOnce.Do`, which runs on the first call
alone; later calls skip the closure and return the untouched local. -/
def loadFromMemory (w : World) (s : State) : State × Option GoError :=
  if s.memOnce then (s, none)
  else
    let s0 : State :=
      { s with memOnce := true,
               trace := s.trace ++ [Event.LoadFromMemory w.WebView2Loader] }
    match w.LoadFromMemory w.WebView2Loader with
    | .error e =>
      ({ s0 with memModule := none, memErr := some (.ext e) },
       some (.Errorf "Unable to load WebView2Loader.dll from memory: %w" [] (some e)))
    | .ok m =>
      ({ s0 with
          memModule := some m, memErr := none,
          memCreate := m.Proc "CreateCoreWebView2EnvironmentWithOptions",
          memCompareBrowserVersions := m.Proc "CompareBrowserVersions",
          memGetAvailableCoreWebView2BrowserVersionString :=
            m.Proc "GetAvailableCoreWebView2BrowserVersionString" },
       none)

/-- The function `CompareBrowserVersions`. -/
def CompareBrowserVersions (w : World) (s : State) (v1 v2 : GoString) :
    State × Outcome (Int × Option GoError) :=
  match UTF16PtrFromString w v1 with
  | (_, some err) => (s, .returned (0, some err))
  | (_v1, none) =>
    match UTF16PtrFromString w v2 with
    | (_, some err) => (s, .returned (0, some err))
    | (_v2, none) =>
      match loadFromMemory w s with
      | (s1, some err) => (s1, .returned (0, some err))
      | (s1, none) =>
        match s1.memCompareBrowserVersions with
        | none => (s1, .panicked)
        | some p =>
          let (s2, r) := Proc.Call w s1 p [ptrArg _v1, ptrArg _v2, Arg.out]
          let result : Int := r.outInt32
          if r.lastErr ≠ some ERROR_SUCCESS then
            (s2, .returned (0, r.lastErr.map GoError.ext))
          else (s2, .returned (result, none))

/-- The function `GetInstalledVersion`. -/
def GetInstalledVersion (w : World) (s : State) :
    State × Outcome (GoString × Option GoError) :=
  match loadFromMemory w s with
  | (s1, some err) => (s1, .returned ([], some err))
  | (s1, none) =>
    match s1.memGetAvailableCoreWebView2BrowserVersionString with
    | none => (s1, .panicked)
    | some p =>
      let (s2, r) := Proc.Call w s1 p [ptrArg none, Arg.out]
      let res := r.r1
      if res ≠ 0 then
        if res = E_FILENOTFOUND then (s2, .returned ([], none))
        else
          (s2, .returned ([], some (.Errorf
            "Unable to call GetAvailableCoreWebView2BrowserVersionString (%x): %w"
            [res] r.lastErr)))
      else
        let version := UTF16PtrToString w r.outWStr
        (CoTaskMemFree s2 r.outWStr, .returned (version, none))

/-- The function `CreateCoreWebView2EnvironmentWithOptions`.  The two folder
arguments are `*uint16` values owned by the caller, given here by their
addresses. -/
def CreateCoreWebView2EnvironmentWithOptions (w : World) (s : State)
    (browserExecutableFolder userDataFolder environmentOptions
      environmentCompletedHandle : Nat) :
    State × Outcome (Nat × Option GoError) :=
  match loadFromMemory w s with
  | (s1, some err) => (s1, .returned (0, some err))
  | (s1, none) =>
    match s1.memCreate with
    | none => (s1, .panicked)
    | some p =>
      let (s2, r) := Proc.Call w s1 p
        [Arg.word (uint64 (uintptr browserExecutableFolder)),
         Arg.word (uint64 (uintptr userDataFolder)),
         Arg.word (uint64 environmentOptions),
         Arg.word (uint64 environmentCompletedHandle)]
      (s2, .returned (uintptr r.r1, none))

/-! ## Sequences of calls -/

/-- One call of an exported function, with its arguments. -/
inductive ApiCall where
  | CompareBrowserVersions (v1 v2 : GoString)
  | GetInstalledVersion
  | CreateCoreWebView2EnvironmentWithOptions
      (browserExecutableFolder userDataFolder environmentOptions
        environmentCompletedHandle : Nat)
  deriving DecidableEq, Repr

/-- The state after one call (also when the call panicked and the panic was
recovered by the caller). -/
def step (w : World) (s : State) : ApiCall → State
  | .CompareBrowserVersions v1 v2 => (CompareBrowserVersions w s v1 v2).1
  | .GetInstalledVersion => (GetInstalledVersion w s).1
  | .CreateCoreWebView2EnvironmentWithOptions a b c d =>
    (CreateCoreWebView2EnvironmentWithOptions w s a b c d).1

/-- The state after a sequence of calls, first call first. -/
def run (w : World) (s : State) (calls : List ApiCall) : State :=
  calls.foldl (step w) s

/-- How many times `winloader.LoadFromMemory` has been invoked. -/
def loadCount (s : State) : Nat := s.trace.countP Event.isLoad

/-- How many native routine calls have been made. -/
def nativeCount (s : State) : Nat := s.trace.countP Event.isNative

/-- The trace entries in `evs` are appended to the trace; nothing else changes. -/
def State.extend (s : State) (evs : List Event) : State :=
  { s with trace := s.trace ++ evs }

/-- The loader has been invoked once if `memOnce` is set and never otherwise. -/
def Inv (s : State) : Prop := loadCount s = if s.memOnce then 1 else 0

instance (s : State) : Decidable (Inv s) := by
  unfold Inv
  infer_instance

/-! ## Sample worlds -/

/-- An image that exports the three routines. -/
def sampleModule : Module :=
  { exports := [("CreateCoreWebView2EnvironmentWithOptions", ⟨4096⟩),
                ("CompareBrowserVersions", ⟨4112⟩),
                ("GetAvailableCoreWebView2BrowserVersionString", ⟨4128⟩)] }

/-- A byte-per-unit stand-in for the UTF-16 encoder (exact on ASCII). -/
def asciiEncode (s : GoString) : List Nat := s.map (fun b => b.val)

/-- A unit-per-byte stand-in for the UTF-16 decoder (exact on ASCII). -/
def asciiDecode (u : List Nat) : GoString := u.map (fun x => Fin.ofNat x)

/-- A world in which the load succeeds and every call reports `ERROR_SUCCESS`:
the comparison routine stores `-1`, the version query answers "1.0" with status
0, and the environment routine answers status 0. -/
def okWorld : World :=
  { EINVAL := 536870951
    utf16Encode := asciiEncode
    utf16Decode := asciiDecode
    WebView2Loader := [77, 90]
    LoadFromMemory := fun _ => .ok sampleModule
    native := fun _ p _ =>
      if p.addr = 4112 then
        { r1 := 0, r2 := 0, lastErr := some ERROR_SUCCESS, outInt32 := -1, outWStr := none }
      else if p.addr = 4128 then
        { r1 := 0, r2 := 0, lastErr := some ERROR_SUCCESS, outInt32 := 0,
          outWStr := some [49, 46, 48, 0] }
      else
        { r1 := 0, r2 := 0, lastErr := some ERROR_SUCCESS, outInt32 := 0, outWStr := none } }

/-- A world in which the load succeeds and the runtime is not installed: the
version query answers `E_FILENOTFOUND` with last-error 2. -/
def notInstalledWorld : World :=
  { okWorld with
    native := fun _ _ _ =>
      { r1 := 0x80070002, r2 := 0, lastErr := some (.Errno 2), outInt32 := 0,
        outWStr := none } }

/-- A world in which the load succeeds and every native routine answers the
failure status `0x80004005` (E_FAIL) while the last-error value stays
`ERROR_SUCCESS`. -/
def failStatusWorld : World :=
  { okWorld with
    native := fun _ _ _ =>
      { r1 := 0x80004005, r2 := 0, lastErr := some ERROR_SUCCESS, outInt32 := 0,
        outWStr := none } }

/-- A world in which the load succeeds and every native routine answers the
failure status `0x80004005` with last-error 5. -/
def failingCallWorld : World :=
  { okWorld with
    native := fun _ _ _ =>
      { r1 := 0x80004005, r2 := 0, lastErr := some (.Errno 5), outInt32 := 0,
        outWStr := none } }

/-- A world in which `winloader.LoadFromMemory` fails. -/
def failWorld : World :=
  { okWorld with LoadFromMemory := fun _ => .error (.other "invalid PE image") }

/-! ## Basic facts about `loadFromMemory` -/

theorem loadFromMemory_done (w : World) (s : State) (h : s.memOnce = true) :
    loadFromMemory w s = (s, none) := by
  simp [loadFromMemory, h]

theorem loadFromMemory_memOnce (w : World) (s : State) :
    (loadFromMemory w s).1.memOnce = true := by
  unfold loadFromMemory
  split
  · assumption
  · split <;> rfl

theorem int32_of_range (r : Int) (hlo : -2 ^ 31 ≤ r) (hhi : r < 2 ^ 31) : int32 r = r := by
  unfold int32
  rw [Int.emod_eq_of_lt (by omega) (by omega)]
  omega

theorem uint64_of_lt (x : Nat) (h : x < 2 ^ 64) : uint64 x = x := by
  unfold uint64
  exact Nat.mod_eq_of_lt h

theorem uintptr_of_lt (x : Nat) (h : x < 2 ^ 64) : uintptr x = x := by
  unfold uintptr
  exact Nat.mod_eq_of_lt h

theorem UTF16PtrFromString_NUL (w : World) (v : GoString) (h : 0 ∈ v) :
    UTF16PtrFromString w v = (none, some (.ext (.Errno w.EINVAL))) := by
  simp [UTF16PtrFromString, h]

theorem UTF16PtrFromString_ok (w : World) (v : GoString) (h : 0 ∉ v) :
    UTF16PtrFromString w v = (some (w.utf16Encode (v ++ [0])), none) := by
  simp [UTF16PtrFromString, h]

theorem uintptr_uint64 (x : Nat) : uintptr (uint64 x) = uint64 x := by
  unfold uintptr uint64
  exact Nat.mod_mod _ _

/-! ## What one call does to the state -/

/-- The only change a call makes to the state, apart from the one
`loadFromMemory` makes, is to append entries that are not loader
invocations to the trace. -/
theorem step_shape (w : World) (s : State) (c : ApiCall) :
    ∃ evs, (∀ e ∈ evs, Event.isLoad e = false) ∧
      (step w s c = s.extend evs ∨ step w s c = (loadFromMemory w s).1.extend evs) := by
  have hnil : ∀ t : State, t = t.extend [] := by
    intro t
    simp [State.extend]
  cases c with
  | CompareBrowserVersions v1 v2 =>
    simp only [step]
    by_cases h1 : 0 ∈ v1
    · refine ⟨[], by simp, Or.inl ?_⟩
      simp only [CompareBrowserVersions, UTF16PtrFromString_NUL w v1 h1]
      exact hnil s
    · by_cases h2 : 0 ∈ v2
      · refine ⟨[], by simp, Or.inl ?_⟩
        simp only [CompareBrowserVersions, UTF16PtrFromString_ok w v1 h1,
          UTF16PtrFromString_NUL w v2 h2]
        exact hnil s
      · simp only [CompareBrowserVersions, UTF16PtrFromString_ok w v1 h1,
          UTF16PtrFromString_ok w v2 h2]
        rcases hl : loadFromMemory w s with ⟨s1, _ | err⟩
        · cases hp : s1.memCompareBrowserVersions with
          | none =>
            simp only [hp]
            exact ⟨[], by simp, Or.inr (hnil s1)⟩
          | some p =>
            simp only [hp]
            refine ⟨[Event.Call p [ptrArg (some (w.utf16Encode (v1 ++ [0]))),
              ptrArg (some (w.utf16Encode (v2 ++ [0]))), Arg.out]],
              by simp [Event.isLoad], Or.inr ?_⟩
            simp only [Proc.Call, State.extend]
            split <;> rfl
        · exact ⟨[], by simp, Or.inr (hnil s1)⟩
  | GetInstalledVersion =>
    simp only [step, GetInstalledVersion]
    rcases hl : loadFromMemory w s with ⟨s1, _ | err⟩
    · cases hp : s1.memGetAvailableCoreWebView2BrowserVersionString with
      | none =>
        simp only [hp]
        exact ⟨[], by simp, Or.inr (hnil s1)⟩
      | some p =>
        simp only [hp, Proc.Call, State.extend]
        by_cases hz : uint64 (w.native s1.trace p [ptrArg none, Arg.out]).r1 = 0
        · refine ⟨[Event.Call p [ptrArg none, Arg.out],
            Event.CoTaskMemFree (w.native s1.trace p [ptrArg none, Arg.out]).outWStr],
            by simp [Event.isLoad], Or.inr ?_⟩
          simp [hz, CoTaskMemFree]
        · refine ⟨[Event.Call p [ptrArg none, Arg.out]], by simp [Event.isLoad], Or.inr ?_⟩
          simp only [ne_eq, hz, not_false_eq_true, if_true]
          split <;> rfl
    · exact ⟨[], by simp, Or.inr (hnil s1)⟩
  | CreateCoreWebView2EnvironmentWithOptions a b c d =>
    simp only [step, CreateCoreWebView2EnvironmentWithOptions]
    rcases hl : loadFromMemory w s with ⟨s1, _ | err⟩
    · cases hp : s1.memCreate with
      | none =>
        simp only [hp]
        exact ⟨[], by simp, Or.inr (hnil s1)⟩
      | some p =>
        simp only [hp]
        exact ⟨[Event.Call p [Arg.word (uint64 (uintptr a)), Arg.word (uint64 (uintptr b)),
          Arg.word (uint64 c), Arg.word (uint64 d)]], by simp [Event.isLoad], Or.inr rfl⟩
    · exact ⟨[], by simp, Or.inr (hnil s1)⟩

theorem loadCount_extend (s : State) (evs : List Event)
    (h : ∀ e ∈ evs, Event.isLoad e = false) :
    loadCount (s.extend evs) = loadCount s := by
  have hz : evs.countP Event.isLoad = 0 := by
    rw [List.countP_eq_zero]
    intro e he
    simp [h e he]
  simp [loadCount, State.extend, List.countP_append, hz]

theorem Inv_initial : Inv State.initial := by
  simp [Inv, State.initial, loadCount]

theorem Inv_loadFromMemory (w : World) (s : State) (h : Inv s) :
    Inv (loadFromMemory w s).1 := by
  unfold Inv at *
  rw [loadFromMemory_memOnce]
  by_cases hm : s.memOnce = true
  · rw [loadFromMemory_done w s hm]
    simpa [hm] using h
  · have hm2 : s.memOnce = false := by simpa using hm
    rw [hm2] at h
    simp only [Bool.false_eq_true, if_false] at h
    unfold loadFromMemory
    rw [hm2]
    simp only [Bool.false_eq_true, if_false]
    split <;> simp [loadCount, List.countP_append, Event.isLoad] <;>
      simpa [loadCount] using h

theorem Inv_step (w : World) (s : State) (c : ApiCall) (h : Inv s) : Inv (step w s c) := by
  obtain ⟨evs, hevs, hcase⟩ := step_shape w s c
  rcases hcase with hc | hc
  · rw [hc]
    unfold Inv
    rw [loadCount_extend s evs hevs]
    exact h
  · rw [hc]
    have h2 := Inv_loadFromMemory w s h
    unfold Inv at *
    rw [loadCount_extend _ evs hevs]
    exact h2

theorem Inv_run (w : World) (calls : List ApiCall) (s : State) (h : Inv s) :
    Inv (run w s calls) := by
  induction calls generalizing s with
  | nil => exact h
  | cons c cs ih => exact ih (step w s c) (Inv_step w s c h)

/-- Once `memOnce` is set, a call changes neither it nor the handles. -/
theorem step_handles (w : World) (s : State) (c : ApiCall) (h : s.memOnce = true) :
    (step w s c).memOnce = true ∧
      (step w s c).memCreate = s.memCreate ∧
      (step w s c).memCompareBrowserVersions = s.memCompareBrowserVersions ∧
      (step w s c).memGetAvailableCoreWebView2BrowserVersionString
        = s.memGetAvailableCoreWebView2BrowserVersionString ∧
      (step w s c).memModule = s.memModule ∧ (step w s c).memErr = s.memErr := by
  obtain ⟨evs, _, hcase⟩ := step_shape w s c
  rw [loadFromMemory_done w s h] at hcase
  have hc : step w s c = s.extend evs := by
    rcases hcase with hc | hc <;> exact hc
  rw [hc]
  exact ⟨h, rfl, rfl, rfl, rfl, rfl⟩

theorem run_handles (w : World) (calls : List ApiCall) (s : State) (h : s.memOnce = true) :
    (run w s calls).memCreate = s.memCreate ∧
      (run w s calls).memCompareBrowserVersions = s.memCompareBrowserVersions ∧
      (run w s calls).memGetAvailableCoreWebView2BrowserVersionString
        = s.memGetAvailableCoreWebView2BrowserVersionString ∧
      (run w s calls).memModule = s.memModule ∧ (run w s calls).memErr = s.memErr := by
  induction calls generalizing s with
  | nil => exact ⟨rfl, rfl, rfl, rfl, rfl⟩
  | cons c cs ih =>
    obtain ⟨h1, h2, h3, h4, h5, h6⟩ := step_handles w s c h
    obtain ⟨k2, k3, k4, k5, k6⟩ := ih (step w s c) h1
    exact ⟨k2.trans h2, k3.trans h3, k4.trans h4, k5.trans h5, k6.trans h6⟩

theorem run_append (w : World) (s : State) (xs ys : List ApiCall) :
    run w s (xs ++ ys) = run w (run w s xs) ys := by
  simp [run, List.foldl_append]

/-! ## The claims -/

/-- C1: whenever the load succeeds (`loadFromMemory` returns a nil error and
the handle `memGetAvailableCoreWebView2BrowserVersionString` holds the resolved
routine `p`) and the routine answers the status `0x80070002`, the function
`GetInstalledVersion` returns the empty string and a nil error.  The last-error
value of the call is not constrained. -/
theorem GetInstalledVersion_not_found (w : World) (s s1 : State) (p : Proc)
    (hload : loadFromMemory w s = (s1, none))
    (hproc : s1.memGetAvailableCoreWebView2BrowserVersionString = some p)
    (hres : (Proc.Call w s1 p [Arg.word 0, Arg.out]).2.r1 = E_FILENOTFOUND) :
    (GetInstalledVersion w s).2 = .returned ([], none) := by
  have hz : (Proc.Call w s1 p [Arg.word 0, Arg.out]).2.r1 ≠ 0 := by
    rw [hres]; decide
  have harg : ptrArg none = Arg.word 0 := by decide
  simp only [GetInstalledVersion, hload, hproc, harg]
  rw [if_pos hz, if_pos hres]

theorem GetInstalledVersion_not_found_witness :
    (GetInstalledVersion notInstalledWorld State.initial).2 = .returned ([], none) :=
  GetInstalledVersion_not_found notInstalledWorld State.initial
    (loadFromMemory notInstalledWorld State.initial).1 ⟨4128⟩ (by decide) (by decide) (by decide)

/-- C3: when `v1` or `v2` holds a NUL byte, `CompareBrowserVersions` returns 0
with the non-nil error `EINVAL` and leaves the whole state as it was: the trace
gains no entry (no load, no native call) and a following `loadFromMemory`
behaves exactly as it would have before the call. -/
theorem CompareBrowserVersions_rejects_NUL (w : World) (s : State) (v1 v2 : GoString)
    (h : 0 ∈ v1 ∨ 0 ∈ v2) :
    CompareBrowserVersions w s v1 v2
        = (s, .returned (0, some (.ext (.Errno w.EINVAL)))) ∧
      (CompareBrowserVersions w s v1 v2).1.trace = s.trace ∧
      loadCount (CompareBrowserVersions w s v1 v2).1 = loadCount s ∧
      nativeCount (CompareBrowserVersions w s v1 v2).1 = nativeCount s ∧
      loadFromMemory w (CompareBrowserVersions w s v1 v2).1 = loadFromMemory w s := by
  have key : CompareBrowserVersions w s v1 v2
      = (s, .returned (0, some (.ext (.Errno w.EINVAL)))) := by
    by_cases h1 : 0 ∈ v1
    · simp only [CompareBrowserVersions, UTF16PtrFromString_NUL w v1 h1]
    · have h2 : 0 ∈ v2 := h.resolve_left h1
      simp only [CompareBrowserVersions, UTF16PtrFromString_ok w v1 h1,
        UTF16PtrFromString_NUL w v2 h2]
  rw [key]
  exact ⟨rfl, rfl, rfl, rfl, rfl⟩

theorem CompareBrowserVersions_rejects_NUL_witness :
    CompareBrowserVersions okWorld State.initial [49, 0, 50] [49]
        = (State.initial, .returned (0, some (.ext (.Errno 536870951)))) ∧
      (loadFromMemory okWorld
        (CompareBrowserVersions okWorld State.initial [49, 0, 50] [49]).1).1.trace
        = [Event.LoadFromMemory [77, 90]] :=
  ⟨(CompareBrowserVersions_rejects_NUL okWorld State.initial [49, 0, 50] [49]
      (Or.inl (by decide))).1, by decide⟩

/-- C7: for NUL-free `v1`, `v2`, when the load succeeded and the handle
`memCompareBrowserVersions` holds the routine `p`, `CompareBrowserVersions` calls
`p` once with the encoded `v1`, the encoded `v2` and the address of the result
slot, in that order.  With `out` what that call produced: if the call reports
`ERROR_SUCCESS`, having stored the `int32` value `out.outInt32`, the function
returns that value and a nil error (so the answer has the sign the routine
wrote); otherwise it returns 0 and the error of the call. -/
theorem CompareBrowserVersions_native_result (w : World) (s s1 : State) (p : Proc)
    (v1 v2 : GoString) (out : CallResult)
    (hv1 : 0 ∉ v1) (hv2 : 0 ∉ v2)
    (hload : loadFromMemory w s = (s1, none))
    (hproc : s1.memCompareBrowserVersions = some p)
    (hcall : w.native s1.trace p
        [Arg.wstr (w.utf16Encode (v1 ++ [0])), Arg.wstr (w.utf16Encode (v2 ++ [0])),
         Arg.out] = out)
    (hlo : -2 ^ 31 ≤ out.outInt32) (hhi : out.outInt32 < 2 ^ 31) :
    (CompareBrowserVersions w s v1 v2).1.trace
        = s1.trace ++ [Event.Call p
            [Arg.wstr (w.utf16Encode (v1 ++ [0])), Arg.wstr (w.utf16Encode (v2 ++ [0])),
             Arg.out]] ∧
      (out.lastErr = some ERROR_SUCCESS →
        (CompareBrowserVersions w s v1 v2).2 = .returned (out.outInt32, none)) ∧
      (out.lastErr ≠ some ERROR_SUCCESS →
        (CompareBrowserVersions w s v1 v2).2
          = .returned (0, out.lastErr.map GoError.ext)) := by
  have hr := int32_of_range out.outInt32 hlo hhi
  simp only [CompareBrowserVersions, UTF16PtrFromString_ok w v1 hv1,
    UTF16PtrFromString_ok w v2 hv2, hload, hproc, Proc.Call, ptrArg, hcall]
  refine ⟨?_, ?_, ?_⟩
  · split <;> rfl
  · intro hs
    simp [hs, hr]
  · intro hs
    simp [hs]

theorem CompareBrowserVersions_native_result_witness :
    (CompareBrowserVersions okWorld State.initial [49, 46, 48] [50, 46, 48]).2
      = .returned (-1, none) :=
  (CompareBrowserVersions_native_result okWorld State.initial
    (loadFromMemory okWorld State.initial).1 ⟨4112⟩ [49, 46, 48] [50, 46, 48]
    { r1 := 0, r2 := 0, lastErr := some ERROR_SUCCESS, outInt32 := -1, outWStr := none }
    (by decide) (by decide) (by decide) (by decide) (by decide) (by decide) (by decide)).2.1
    (by decide)

/-- C9: a returned error always comes with the empty string; when
`loadFromMemory` returns an error, `GetInstalledVersion` returns that error;
when `loadFromMemory` returns nil, it returns a non-nil error exactly when the
routine held in the handle answers a status (a `uint64`) that is neither 0 nor
`0x80070002`; when the status is 0 it returns the decoding of the buffer the
routine stored, with a nil error; and when the status is `0x80070002` it
returns the empty string with a nil error. -/
theorem GetInstalledVersion_error_iff (w : World) (s : State) :
    (∀ str err, (GetInstalledVersion w s).2 = .returned (str, err) →
        err ≠ none → str = []) ∧
      (∀ s1 err, loadFromMemory w s = (s1, some err) →
        (GetInstalledVersion w s).2 = .returned ([], some err)) ∧
      (∀ s1, loadFromMemory w s = (s1, none) →
        ((∃ str err, (GetInstalledVersion w s).2 = .returned (str, some err)) ↔
          ∃ p, s1.memGetAvailableCoreWebView2BrowserVersionString = some p ∧
            (Proc.Call w s1 p [Arg.word 0, Arg.out]).2.r1 ≠ 0 ∧
            (Proc.Call w s1 p [Arg.word 0, Arg.out]).2.r1 ≠ E_FILENOTFOUND)) ∧
      (∀ s1 p, loadFromMemory w s = (s1, none) →
        s1.memGetAvailableCoreWebView2BrowserVersionString = some p →
        ((Proc.Call w s1 p [Arg.word 0, Arg.out]).2.r1 = 0 →
          (GetInstalledVersion w s).2 = .returned
            (UTF16PtrToString w (Proc.Call w s1 p [Arg.word 0, Arg.out]).2.outWStr, none)) ∧
        ((Proc.Call w s1 p [Arg.word 0, Arg.out]).2.r1 = E_FILENOTFOUND →
          (GetInstalledVersion w s).2 = .returned ([], none))) := by
  have harg : ptrArg none = Arg.word 0 := by decide
  have hne : E_FILENOTFOUND ≠ 0 := by decide
  refine ⟨?_, ?_, ?_, ?_⟩
  · intro str err hret herr
    unfold GetInstalledVersion at hret
    split at hret
    · simp only [Outcome.returned.injEq, Prod.mk.injEq] at hret
      exact hret.1.symm
    · split at hret
      · exact absurd hret (by simp)
      · simp only at hret
        split at hret
        · split at hret
          · simp only [Outcome.returned.injEq, Prod.mk.injEq] at hret
            exact hret.1.symm
          · simp only [Outcome.returned.injEq, Prod.mk.injEq] at hret
            exact hret.1.symm
        · simp only [Outcome.returned.injEq, Prod.mk.injEq] at hret
          exact absurd hret.2.symm herr
  · intro s1 err hload
    simp only [GetInstalledVersion, hload]
  · intro s1 hload
    cases hproc : s1.memGetAvailableCoreWebView2BrowserVersionString with
    | none =>
      simp [GetInstalledVersion, hload, hproc]
    | some p =>
      simp only [GetInstalledVersion, hload, hproc, harg]
      by_cases hz : (Proc.Call w s1 p [Arg.word 0, Arg.out]).2.r1 = 0
      · simp [hz]
      · by_cases hn : (Proc.Call w s1 p [Arg.word 0, Arg.out]).2.r1 = E_FILENOTFOUND
        · simp [hn, hne]
        · simp [hz, hn]
  · intro s1 p hload hproc
    simp only [GetInstalledVersion, hload, hproc, harg]
    constructor
    · intro hz
      simp [hz]
    · intro hn
      simp [hn, hne]

theorem GetInstalledVersion_error_iff_witness :
    (GetInstalledVersion okWorld State.initial).2 = .returned ([49, 46, 48], none) ∧
      (∃ str err, (GetInstalledVersion failingCallWorld State.initial).2
        = .returned (str, some err)) :=
  ⟨((GetInstalledVersion_error_iff okWorld State.initial).2.2.2
      (loadFromMemory okWorld State.initial).1 ⟨4128⟩ (by decide) (by decide)).1 (by decide),
   ((GetInstalledVersion_error_iff failingCallWorld State.initial).2.2.1
      (loadFromMemory failingCallWorld State.initial).1 (by decide)).2
      ⟨⟨4128⟩, by decide, by decide, by decide⟩⟩

/-- C4, the code at the failing input: in a process where the load fails, the
first `loadFromMemory` returns the wrapped error and stores the cause in
`memErr`, and the second `loadFromMemory` returns nil although `memErr` still
holds the failure. -/
theorem loadFromMemory_forgets_failure :
    (loadFromMemory failWorld State.initial).2
        = some (.Errorf "Unable to load WebView2Loader.dll from memory: %w" []
            (some (.other "invalid PE image"))) ∧
      (loadFromMemory failWorld State.initial).1.memErr
        = some (.ext (.other "invalid PE image")) ∧
      (loadFromMemory failWorld (loadFromMemory failWorld State.initial).1).2 = none ∧
      (loadFromMemory failWorld (loadFromMemory failWorld State.initial).1).1.memErr
        = some (.ext (.other "invalid PE image")) := by
  decide

/-- C5, the code at the failing input: after one `GetInstalledVersion` in a
process where the load fails, `memErr` is non-nil and all three handles are
nil, yet none of the three wrappers returns an error: each goes on to call
through its nil handle and panics. -/
theorem wrappers_call_through_nil_after_failed_load :
    (run failWorld State.initial [ApiCall.GetInstalledVersion]).memErr ≠ none ∧
      (run failWorld State.initial
        [ApiCall.GetInstalledVersion]).memGetAvailableCoreWebView2BrowserVersionString
        = none ∧
      (GetInstalledVersion failWorld
        (run failWorld State.initial [ApiCall.GetInstalledVersion])).2 = .panicked ∧
      (CreateCoreWebView2EnvironmentWithOptions failWorld
        (run failWorld State.initial [ApiCall.GetInstalledVersion]) 0 0 0 0).2
        = .panicked ∧
      (CompareBrowserVersions failWorld
        (run failWorld State.initial [ApiCall.GetInstalledVersion])
        [49, 46, 48] [50, 46, 48]).2 = .panicked := by
  decide

/-- C10, the code at the failing input: in a process where the load fails, the
first `CreateCoreWebView2EnvironmentWithOptions` returns 0 and the load error;
on the second one `loadFromMemory` returns nil, no routine is resolved in
`memCreate`, no call is recorded and the function panics instead of returning. -/
theorem Create_second_call_after_failed_load :
    (CreateCoreWebView2EnvironmentWithOptions failWorld State.initial 0 0 0 0).2
        = .returned (0, some (.Errorf "Unable to load WebView2Loader.dll from memory: %w"
            [] (some (.other "invalid PE image")))) ∧
      (loadFromMemory failWorld
        (run failWorld State.initial
          [ApiCall.CreateCoreWebView2EnvironmentWithOptions 0 0 0 0])).2 = none ∧
      (run failWorld State.initial
        [ApiCall.CreateCoreWebView2EnvironmentWithOptions 0 0 0 0]).memCreate = none ∧
      CreateCoreWebView2EnvironmentWithOptions failWorld
        (run failWorld State.initial
          [ApiCall.CreateCoreWebView2EnvironmentWithOptions 0 0 0 0]) 0 0 0 0
        = (run failWorld State.initial
            [ApiCall.CreateCoreWebView2EnvironmentWithOptions 0 0 0 0], .panicked) := by
  decide

/-- What `CreateCoreWebView2EnvironmentWithOptions` does whenever the handle is
resolved: with `loadFromMemory` returning nil and `memCreate` holding `p`, it
calls `p` once with the four arguments in order and unchanged and returns the
first result word and a nil error; with `loadFromMemory` returning an error it
returns 0 and that error and the trace gains no call. -/
theorem Create_pass_through (w : World) (s s1 : State) (a b c d : Nat)
    (ha : a < 2 ^ 64) (hb : b < 2 ^ 64) (hc : c < 2 ^ 64) (hd : d < 2 ^ 64) :
    (∀ p, loadFromMemory w s = (s1, none) → s1.memCreate = some p →
        CreateCoreWebView2EnvironmentWithOptions w s a b c d
          = ({ s1 with trace := s1.trace ++
                [Event.Call p [Arg.word a, Arg.word b, Arg.word c, Arg.word d]] },
             .returned ((w.native s1.trace p
                [Arg.word a, Arg.word b, Arg.word c, Arg.word d]).r1 % 2 ^ 64, none))) ∧
      (∀ err, loadFromMemory w s = (s1, some err) →
        CreateCoreWebView2EnvironmentWithOptions w s a b c d
          = (s1, .returned (0, some err))) := by
  constructor
  · intro p hload hproc
    simp only [CreateCoreWebView2EnvironmentWithOptions, hload, hproc, Proc.Call,
      uint64_of_lt _ ha, uint64_of_lt _ hb, uint64_of_lt _ hc, uint64_of_lt _ hd,
      uintptr_of_lt _ ha, uintptr_of_lt _ hb]
    simp [uint64, uintptr]
  · intro err hload
    simp only [CreateCoreWebView2EnvironmentWithOptions, hload]

theorem Create_pass_through_witness :
    CreateCoreWebView2EnvironmentWithOptions failStatusWorld State.initial 1 2 3 4
      = ({ (loadFromMemory failStatusWorld State.initial).1 with
            trace := [Event.LoadFromMemory [77, 90],
              Event.Call ⟨4096⟩ [Arg.word 1, Arg.word 2, Arg.word 3, Arg.word 4]] },
         .returned (0x80004005, none)) :=
  (Create_pass_through failStatusWorld State.initial
    (loadFromMemory failStatusWorld State.initial).1 1 2 3 4
    (by decide) (by decide) (by decide) (by decide)).1 ⟨4096⟩ (by decide) (by decide)

/-- C2: along every finite sequence of calls from the initial state, in
every world (also one where the load fails), `winloader.LoadFromMemory` has
been invoked at most once; and once it has been invoked, the three handles
(and `memModule`, `memErr`) keep the values they have, whatever calls follow. -/
theorem load_at_most_once (w : World) (before after : List ApiCall) :
    loadCount (run w State.initial (before ++ after)) ≤ 1 ∧
      (loadCount (run w State.initial before) = 1 →
        (run w State.initial (before ++ after)).memCreate
            = (run w State.initial before).memCreate ∧
          (run w State.initial (before ++ after)).memCompareBrowserVersions
            = (run w State.initial before).memCompareBrowserVersions ∧
          (run w State.initial
              (before ++ after)).memGetAvailableCoreWebView2BrowserVersionString
            = (run w State.initial before).memGetAvailableCoreWebView2BrowserVersionString ∧
          (run w State.initial (before ++ after)).memModule
            = (run w State.initial before).memModule ∧
          (run w State.initial (before ++ after)).memErr
            = (run w State.initial before).memErr ∧
          loadCount (run w State.initial (before ++ after)) = 1) := by
  constructor
  · have h := Inv_run w (before ++ after) State.initial Inv_initial
    unfold Inv at h
    rw [h]
    split <;> simp
  · intro h1
    have hb := Inv_run w before State.initial Inv_initial
    unfold Inv at hb
    have hm : (run w State.initial before).memOnce = true := by
      by_contra hne
      rw [if_neg hne] at hb
      omega
    rw [run_append]
    obtain ⟨k2, k3, k4, k5, k6⟩ := run_handles w after _ hm
    refine ⟨k2, k3, k4, k5, k6, ?_⟩
    have ha := Inv_run w after _ hb
    unfold Inv at ha
    have hm2 : (run w (run w State.initial before) after).memOnce = true := by
      clear ha k2 k3 k4 k5 k6 h1 hb
      induction after generalizing before with
      | nil => exact hm
      | cons c cs ih =>
        have := (step_handles w _ c hm).1
        have key := ih (before ++ [c]) (by rw [run_append]; exact this)
        rw [run_append] at key
        exact key
    rw [ha, if_pos hm2]

theorem load_at_most_once_witness :
    loadCount (run failWorld State.initial
        ([ApiCall.GetInstalledVersion] ++
          [ApiCall.CompareBrowserVersions [49] [50], ApiCall.GetInstalledVersion])) ≤ 1 ∧
      (run okWorld State.initial
        ([ApiCall.GetInstalledVersion] ++
          [ApiCall.CompareBrowserVersions [49] [50]])).memCreate = some ⟨4096⟩ :=
  ⟨(load_at_most_once failWorld [ApiCall.GetInstalledVersion]
      [ApiCall.CompareBrowserVersions [49] [50], ApiCall.GetInstalledVersion]).1,
   ((load_at_most_once okWorld [ApiCall.GetInstalledVersion]
      [ApiCall.CompareBrowserVersions [49] [50]]).2 (by decide)).1.trans (by decide)⟩

/-- C6 as stated fails: in a world where the load succeeds and every routine
answers the failure status `0x80004005`, `CreateCoreWebView2EnvironmentWithOptions`
returns a nil error (with the status as its value), and so does
`CompareBrowserVersions`, whose call left the last-error value at
`ERROR_SUCCESS`. -/
theorem failure_status_returned_with_nil_error :
    (loadFromMemory failStatusWorld State.initial).2 = none ∧
      (Proc.Call failStatusWorld (loadFromMemory failStatusWorld State.initial).1 ⟨4096⟩
        [Arg.word 1, Arg.word 2, Arg.word 3, Arg.word 4]).2.r1 = 0x80004005 ∧
      (CreateCoreWebView2EnvironmentWithOptions failStatusWorld State.initial 1 2 3 4).2
        = .returned (0x80004005, none) ∧
      (Proc.Call failStatusWorld (loadFromMemory failStatusWorld State.initial).1 ⟨4112⟩
        [Arg.wstr [49, 46, 48, 0], Arg.wstr [50, 46, 48, 0], Arg.out]).2.r1 = 0x80004005 ∧
      (CompareBrowserVersions failStatusWorld State.initial [49, 46, 48] [50, 46, 48]).2
        = .returned (0, none) := by
  decide

/-- C6 as amended: whenever the load succeeded (`loadFromMemory` returns nil
and the handle holds the routine `p`),
* `GetInstalledVersion` returns a non-nil error when the status is neither 0
  nor `0x80070002`;
* `CompareBrowserVersions` (NUL-free strings) returns 0 and the error of the
  call when the last-error value of the call is an error other than
  `ERROR_SUCCESS`;
* `CreateCoreWebView2EnvironmentWithOptions` hands the status word of the call
  to its caller unchanged, with a nil error. -/
theorem native_failure_surfaced (w : World) (s s1 : State)
    (hload : loadFromMemory w s = (s1, none)) :
    (∀ p, s1.memGetAvailableCoreWebView2BrowserVersionString = some p →
        (Proc.Call w s1 p [Arg.word 0, Arg.out]).2.r1 ≠ 0 →
        (Proc.Call w s1 p [Arg.word 0, Arg.out]).2.r1 ≠ E_FILENOTFOUND →
        ∃ err, (GetInstalledVersion w s).2 = .returned ([], some err)) ∧
      (∀ p v1 v2 e, 0 ∉ v1 → 0 ∉ v2 → s1.memCompareBrowserVersions = some p →
        (Proc.Call w s1 p [Arg.wstr (w.utf16Encode (v1 ++ [0])),
          Arg.wstr (w.utf16Encode (v2 ++ [0])), Arg.out]).2.lastErr = some e →
        e ≠ ERROR_SUCCESS →
        (CompareBrowserVersions w s v1 v2).2 = .returned (0, some (.ext e))) ∧
      (∀ p a b c d, s1.memCreate = some p →
        (CreateCoreWebView2EnvironmentWithOptions w s a b c d).2
          = .returned ((Proc.Call w s1 p
              [Arg.word (uint64 (uintptr a)), Arg.word (uint64 (uintptr b)),
               Arg.word (uint64 c), Arg.word (uint64 d)]).2.r1, none)) := by
  have harg : ptrArg none = Arg.word 0 := by decide
  refine ⟨?_, ?_, ?_⟩
  · intro p hproc hz hn
    simp only [GetInstalledVersion, hload, hproc, harg]
    simp [hz, hn]
  · intro p v1 v2 e hv1 hv2 hproc herr hne
    have hne2 : ¬ (some e = some ERROR_SUCCESS) := by
      intro h
      exact hne (Option.some.inj h)
    simp only [CompareBrowserVersions, UTF16PtrFromString_ok w v1 hv1,
      UTF16PtrFromString_ok w v2 hv2, hload, hproc, ptrArg, herr]
    simp [hne2]
  · intro p a b c d hproc
    simp only [CreateCoreWebView2EnvironmentWithOptions, hload, hproc, Proc.Call,
      uintptr_uint64]

theorem native_failure_surfaced_witness :
    (∃ err, (GetInstalledVersion failingCallWorld State.initial).2
        = .returned ([], some err)) ∧
      (CompareBrowserVersions failingCallWorld State.initial [49, 46, 48] [50, 46, 48]).2
        = .returned (0, some (.ext (.Errno 5))) ∧
      (CreateCoreWebView2EnvironmentWithOptions failingCallWorld State.initial 1 2 3 4).2
        = .returned (0x80004005, none) :=
  ⟨(native_failure_surfaced failingCallWorld State.initial
      (loadFromMemory failingCallWorld State.initial).1 (by decide)).1 ⟨4128⟩
      (by decide) (by decide) (by decide),
   (native_failure_surfaced failingCallWorld State.initial
      (loadFromMemory failingCallWorld State.initial).1 (by decide)).2.1 ⟨4112⟩
      [49, 46, 48] [50, 46, 48] (.Errno 5) (by decide) (by decide) (by decide) (by decide)
      (by decide),
   (native_failure_surfaced failingCallWorld State.initial
      (loadFromMemory failingCallWorld State.initial).1 (by decide)).2.2 ⟨4096⟩ 1 2 3 4
      (by decide)⟩

end Webviewloader
